import Mathlib

/-!
Shallow embedding of the core engine of saidhamza/FileOrganizer
(file_organizer.py): date resolution from filenames / metadata / filesystem,
GPS coordinate extraction and location naming, category classification,
duplicate grouping, plan execution with collision handling, and the
empty-directory cleanup.  Each definition is a direct translation of the
corresponding Python function; theorems below settle the specification
claims against these definitions.
-/

namespace FileOrganizer

/-- A calendar date as produced by Python `datetime(year, month, day)`. -/
structure Date where
  year : Nat
  month : Nat
  day : Nat
deriving DecidableEq, Repr

def isLeapYear (y : Nat) : Bool :=
  (y % 4 == 0 && y % 100 != 0) || (y % 400 == 0)

def daysInMonth (y m : Nat) : Nat :=
  if m == 2 then (if isLeapYear y then 29 else 28)
  else if m == 4 || m == 6 || m == 9 || m == 11 then 30
  else 31

/-- Python `datetime(y, m, d)` succeeds iff month and day are calendar-valid
(the year range 1..9999 required by `datetime` is subsumed by the caller's
1900..2100 check). -/
def validDate (y m d : Nat) : Bool :=
  1 ≤ m && m ≤ 12 && 1 ≤ d && d ≤ daysInMonth y m

def digitVal (c : Char) : Nat := c.toNat - 48

/-- Read exactly `n` ASCII digits, returning their value and the rest. -/
def takeDigits : Nat → List Char → Nat → Option (Nat × List Char)
  | 0, cs, acc => some (acc, cs)
  | _ + 1, [], _ => none
  | n + 1, c :: cs, acc =>
      if c.isDigit then takeDigits n cs (acc * 10 + digitVal c) else none

/-- The separator class `[-_]` used by the filename date regexes. -/
def isSep (c : Char) : Bool := c == '-' || c == '_'

abbrev Ymd := Nat × Nat × Nat

/-- A matcher for one regex pattern anchored at a position: it receives the
character just before the position (for the lookbehind of the last pattern)
and the remaining characters. -/
abbrev PatternMatcher := Option Char → List Char → Option Ymd

/-- Pattern `(?P<year>\d{4})[-_](?P<month>\d{2})[-_](?P<day>\d{2})`. -/
def matchSepYmd : PatternMatcher := fun _ cs =>
  match takeDigits 4 cs 0 with
  | some (y, c1 :: cs1) =>
    if isSep c1 then
      match takeDigits 2 cs1 0 with
      | some (m, c2 :: cs2) =>
        if isSep c2 then
          match takeDigits 2 cs2 0 with
          | some (d, _) => some (y, m, d)
          | none => none
        else none
      | _ => none
    else none
  | _ => none

/-- Pattern `(?P<year>\d{4})(?P<month>\d{2})(?P<day>\d{2})`. -/
def matchCompactYmd : PatternMatcher := fun _ cs =>
  match takeDigits 4 cs 0 with
  | some (y, cs1) =>
    match takeDigits 2 cs1 0 with
    | some (m, cs2) =>
      match takeDigits 2 cs2 0 with
      | some (d, _) => some (y, m, d)
      | none => none
    | none => none
  | none => none

/-- Pattern `(?P<day>\d{2})[-_](?P<month>\d{2})[-_](?P<year>\d{4})`. -/
def matchSepDmy : PatternMatcher := fun _ cs =>
  match takeDigits 2 cs 0 with
  | some (d, c1 :: cs1) =>
    if isSep c1 then
      match takeDigits 2 cs1 0 with
      | some (m, c2 :: cs2) =>
        if isSep c2 then
          match takeDigits 4 cs2 0 with
          | some (y, _) => some (y, m, d)
          | none => none
        else none
      | _ => none
    else none
  | _ => none

/-- Pattern `(?P<month>\d{2})[-_](?P<day>\d{2})[-_](?P<year>\d{4})`. -/
def matchSepMdy : PatternMatcher := fun _ cs =>
  match takeDigits 2 cs 0 with
  | some (m, c1 :: cs1) =>
    if isSep c1 then
      match takeDigits 2 cs1 0 with
      | some (d, c2 :: cs2) =>
        if isSep c2 then
          match takeDigits 4 cs2 0 with
          | some (y, _) => some (y, m, d)
          | none => none
        else none
      | _ => none
    else none
  | _ => none

/-- Pattern `IMG[_-](?P<year>\d{4})(?P<month>\d{2})(?P<day>\d{2})[_-]`. -/
def matchImgYmd : PatternMatcher := fun _ cs =>
  match cs with
  | 'I' :: 'M' :: 'G' :: c :: cs1 =>
    if isSep c then
      match takeDigits 4 cs1 0 with
      | some (y, cs2) =>
        match takeDigits 2 cs2 0 with
        | some (m, cs3) =>
          match takeDigits 2 cs3 0 with
          | some (d, c2 :: _) => if isSep c2 then some (y, m, d) else none
          | _ => none
        | none => none
      | none => none
    else none
  | _ => none

def prevIsDigit : Option Char → Bool
  | some c => c.isDigit
  | none => false

/-- Pattern `(?<!\d)(?P<year>20\d{2})(?P<month>0[1-9]|1[0-2])(?P<day>[0-3]\d)(?!\d)`. -/
def matchBare20Ymd : PatternMatcher := fun prev cs =>
  if prevIsDigit prev then none
  else match cs with
  | '2' :: '0' :: y1 :: y2 :: m1 :: m2 :: d1 :: d2 :: rest =>
    if y1.isDigit && y2.isDigit && m1.isDigit && m2.isDigit && d1.isDigit && d2.isDigit then
      let mv := 10 * digitVal m1 + digitVal m2
      let dv := 10 * digitVal d1 + digitVal d2
      if decide (1 ≤ mv) && decide (mv ≤ 12) && decide (dv ≤ 39)
          && (match rest with | r :: _ => !r.isDigit | [] => true) then
        some (2000 + 10 * digitVal y1 + digitVal y2, mv, dv)
      else none
    else none
  | _ => none

/-- `re.search`: try the pattern at each position, leftmost first, threading
the previous character for the lookbehind. -/
def searchFrom (p : PatternMatcher) : Option Char → List Char → Option Ymd
  | prev, [] => p prev []
  | prev, c :: cs =>
    match p prev (c :: cs) with
    | some r => some r
    | none => searchFrom p (some c) cs

def reSearch (p : PatternMatcher) (s : List Char) : Option Ymd :=
  searchFrom p none s

/-- The six filename-date patterns in the priority order of the source. -/
def datePatterns : List PatternMatcher :=
  [matchSepYmd, matchCompactYmd, matchSepDmy, matchSepMdy, matchImgYmd, matchBare20Ymd]

/-- The pattern loop of `get_date_from_filename`: search each pattern in order;
on a match, check the component ranges, then construct the `datetime`; a
`ValueError` (calendar-invalid date) or an out-of-range component moves on to
the next pattern. -/
def tryPatterns : List PatternMatcher → List Char → Option Date
  | [], _ => none
  | p :: ps, cs =>
    match reSearch p cs with
    | some (y, m, d) =>
      if 1900 ≤ y ∧ y ≤ 2100 ∧ 1 ≤ m ∧ m ≤ 12 ∧ 1 ≤ d ∧ d ≤ 31 then
        if validDate y m d then some ⟨y, m, d⟩ else tryPatterns ps cs
      else tryPatterns ps cs
    | none => tryPatterns ps cs

/-- `get_date_from_filename` from the source. -/
def get_date_from_filename (filename : String) : Option Date :=
  tryPatterns datePatterns filename.toList

/-- The date-from-filename algorithm as the specification words it: the first
pattern in the fixed priority list whose leftmost match forms a calendar-valid
date with year in 1900..2100 wins. -/
def dateFromFilenameSpec (filename : String) : Option Date :=
  datePatterns.findSome? (fun p =>
    match reSearch p filename.toList with
    | some (y, m, d) =>
      if 1900 ≤ y ∧ y ≤ 2100 ∧ validDate y m d then some ⟨y, m, d⟩ else none
    | none => none)

/-- `get_file_date`: policy-directed fallback chain.  The EXIF source depends
on the file's embedded metadata and is passed as the value that
`get_date_from_exif` would return; the filesystem date is the value of
`get_file_creation_date`, which is always available. -/
def get_file_date (date_source : String) (fname : String)
    (exifDate : Option Date) (fsDate : Date) : Date :=
  match (if date_source == "filename" || date_source == "all"
         then get_date_from_filename fname else none) with
  | some d => d
  | none =>
    match (if date_source == "exif" || date_source == "all" then exifDate else none) with
    | some d => d
    | none => fsDate

/-- Platform timestamps of a file as seen by `os.stat`. -/
structure FileStat where
  ctime : Int
  birthtime : Int
  mtime : Int
  atime : Int
deriving DecidableEq, Repr

/-- `get_file_creation_date`: Windows uses `getctime`, macOS `st_birthtime`,
anything else the earlier of modification and access time.  Total: a
timestamp is always produced. -/
def get_file_creation_date (systemName : String) (st : FileStat) : Int :=
  if systemName == "Windows" then st.ctime
  else if systemName == "Darwin" then st.birthtime
  else min st.mtime st.atime

/-! ### Paths, `splitext`, unique-name generation, and the plan executor -/

/-- A filesystem path as its list of components; the last component is the
file name (`os.path.basename`), the rest the directory (`os.path.dirname`). -/
abbrev FPath := List String

def dirname (p : FPath) : FPath := p.dropLast

def basename (p : FPath) : String := p.getLastD ""

/-- `os.path.splitext`: the extension starts at the last dot of the last
path component, provided some earlier character of that component is not a
dot (so `.bashrc` has no extension). -/
def splitext (s : String) : String × String :=
  match (s.toList.reverse).span (fun c => c != '.' && c != '/') with
  | (_, []) => (s, "")
  | (afterRev, stop :: beforeRev) =>
    if stop == '/' then (s, "")
    else if (beforeRev.takeWhile (fun c => c != '/')).any (fun c => c != '.') then
      (String.mk beforeRev.reverse, String.mk ('.' :: afterRev.reverse))
    else (s, "")

/-- One candidate name in the collision-resolution sequence: candidate 0 is
the original name, candidate n is `base (n)ext`. -/
def unique_candidate (filename : String) (n : Nat) : String :=
  if n == 0 then filename
  else (splitext filename).1 ++ " (" ++ toString n ++ ")" ++ (splitext filename).2

/-- The `while os.path.exists(...)` loop of `generate_unique_filename`,
fuel-bounded: `cur` is the candidate under test, `counter` the next suffix. -/
def unique_name_loop (fs : List FPath) (destination : FPath) (base ext : String) :
    String → Nat → Nat → String
  | cur, _, 0 => cur
  | cur, counter, fuel + 1 =>
    if (destination ++ [cur]) ∈ fs then
      unique_name_loop fs destination base ext
        (base ++ " (" ++ toString counter ++ ")" ++ ext) (counter + 1) fuel
    else cur

/-- `generate_unique_filename` from the source, against the file set `fs`.
The Python loop runs until a free name is found; `fs.length + 1` probes always
suffice because the candidate names are pairwise distinct. -/
def generate_unique_filename (fs : List FPath) (destination : FPath)
    (filename : String) : String :=
  unique_name_loop fs destination (splitext filename).1 (splitext filename).2
    filename 1 (fs.length + 1)

/-- The running state of `execute_organization_with_progress`: the set of
existing files and the counters.  `failed` counts the entries whose move threw,
which the source reports as `total - moved` alongside `skipped`. -/
structure ExecState where
  fs : List FPath
  moved : Nat
  skipped : Nat
  failed : Nat
deriving DecidableEq, Repr

/-- One iteration of the executor loop.  `err` says whether the I/O of this
entry raises (the `except` branch of the source); the skip test happens before
any filesystem operation. -/
def exec_entry (err : Bool) (st : ExecState) (src dst : FPath) : ExecState :=
  if dirname src = dirname dst then
    { st with skipped := st.skipped + 1 }
  else if err then
    { st with failed := st.failed + 1 }
  else
    let dst_dir := dirname dst
    let dst_filename :=
      if dst ∈ st.fs then generate_unique_filename st.fs dst_dir (basename dst)
      else basename dst
    let final_dst := dst_dir ++ [dst_filename]
    { st with fs := st.fs.erase src ++ [final_dst], moved := st.moved + 1 }

def exec_loop : List (FPath × FPath) → List Bool → ExecState → ExecState
  | [], _, st => st
  | e :: rest, errs, st =>
    exec_loop rest errs.tail (exec_entry (errs.headD false) st e.1 e.2)

/-- `execute_organization_with_progress` over a preview plan, starting from
the files `fs` on disk and zero counters; `errs` tells which entries hit an
I/O error. -/
def execute_organization (plan : List (FPath × FPath)) (errs : List Bool)
    (fs : List FPath) : ExecState :=
  exec_loop plan errs { fs := fs, moved := 0, skipped := 0, failed := 0 }

/-! ### Category classification -/

/-- The first-match lookup loop of `get_file_category`. -/
def categoryLoop : List (String × List String) → String → String
  | [], _ => "Other"
  | (cat, exts) :: rest, e => if e ∈ exts then cat else categoryLoop rest e

/-- Python `str.lower` (character-wise lower-casing). -/
def lowerString (s : String) : String :=
  String.mk (s.toList.map Char.toLower)

/-- `get_file_category`: lower-case the extension and return the first
category whose extension list contains it, in table iteration order. -/
def get_file_category (table : List (String × List String)) (file_path : String) : String :=
  categoryLoop table (lowerString (splitext file_path).2)

/-- The `default_categories` table of `FileOrganizerApp.__init__`. -/
def default_categories : List (String × List String) :=
  [("Images", [".jpg", ".jpeg", ".png", ".gif", ".bmp", ".tiff", ".webp", ".svg", ".heic"]),
   ("Documents", [".doc", ".docx", ".pdf", ".txt", ".rtf", ".odt", ".xls", ".xlsx", ".ppt", ".pptx", ".csv"]),
   ("Videos", [".mp4", ".mov", ".avi", ".mkv", ".wmv", ".flv", ".webm", ".m4v", ".mpg", ".mpeg", ".mts", ".m2ts", ".3gp"]),
   ("Audio", [".mp3", ".wav", ".aac", ".flac", ".ogg", ".m4a", ".wma", ".aiff"]),
   ("Archives", [".zip", ".rar", ".7z", ".tar", ".gz", ".bz2", ".xz", ".iso"]),
   ("Code", [".py", ".js", ".html", ".css", ".java", ".c", ".cpp", ".php", ".rb", ".go", ".rs", ".ts", ".sh", ".json", ".xml"]),
   ("Executables", [".exe", ".msi", ".app", ".bat", ".sh", ".apk", ".deb", ".rpm"])]

/-! ### GPS extraction -/

/-- One degrees/minutes/seconds component of an EXIF GPS triple: a rational
object with numerator/denominator attributes, a 2-tuple, or a plain number
(numbers modelled as rationals). -/
inductive GpsComponent where
  | rat (num den : Int)
  | tup (num den : Int)
  | plain (x : ℚ)
deriving DecidableEq, Repr

/-- The per-component conversion of `_convert_gps_coords`: the value starts
at 0 and a division is only performed when the denominator is nonzero. -/
def componentValue : GpsComponent → ℚ
  | .rat n d => if d ≠ 0 then (n : ℚ) / (d : ℚ) else 0
  | .tup n d => if d ≠ 0 then (n : ℚ) / (d : ℚ) else 0
  | .plain x => x

/-- `_convert_gps_coords`: reject anything that is not a triple, reject
out-of-range degrees/minutes/seconds, otherwise form decimal degrees. -/
def convert_gps_coords (coords : List GpsComponent) : Option ℚ :=
  match coords with
  | [dc, mc, sc] =>
    let degrees := componentValue dc
    let minutes := componentValue mc
    let seconds := componentValue sc
    if degrees < 0 ∨ degrees > 180 ∨ minutes < 0 ∨ minutes ≥ 60
        ∨ seconds < 0 ∨ seconds ≥ 60 then none
    else some (degrees + minutes / 60 + seconds / 3600)
  | _ => none

/-- The GPS block of a file's EXIF data as `_extract_gps_with_exception_trap`
sees it: the latitude/longitude triples when the tags are present, and the
hemisphere references (defaulting to north/east via `.get`). -/
structure GpsInfo where
  latitude : Option (List GpsComponent)
  longitude : Option (List GpsComponent)
  latRef : String
  lonRef : String
deriving DecidableEq, Repr

/-- The coordinate-producing tail of `_extract_gps_with_exception_trap`:
convert both triples, apply the hemisphere signs, and validate the bounds. -/
def extract_gps (g : GpsInfo) : Option (ℚ × ℚ) :=
  match g.latitude, g.longitude with
  | some latC, some lonC =>
    match convert_gps_coords latC, convert_gps_coords lonC with
    | some lat0, some lon0 =>
      let lat := if g.latRef == "S" then -lat0 else lat0
      let lon := if g.lonRef == "W" then -lon0 else lon0
      if |lat| > 90 ∨ |lon| > 180 then none
      else some (lat, lon)
    | _, _ => none
  | _, _ => none

/-! ### Location naming -/

/-- Decimal digits of a natural number (fuel-bounded helper). -/
def natDecAux : Nat → Nat → List Char
  | 0, _ => []
  | fuel + 1, n => if n == 0 then [] else natDecAux fuel (n / 10) ++ [Char.ofNat (48 + n % 10)]

def natDec (n : Nat) : String :=
  if n == 0 then "0" else String.mk (natDecAux (n + 1) n)

def pad4 (s : String) : String :=
  String.mk (List.replicate (4 - s.length) '0') ++ s

/-- Python's `f"{x:.4f}"` on the model's rationals: round to four decimal
places and render with a padded fractional part. -/
def fmt4 (q : ℚ) : String :=
  let scaled : Int := round (q * 10000)
  let a := scaled.natAbs
  (if scaled < 0 then "-" else "") ++ natDec (a / 10000) ++ "." ++ pad4 (natDec (a % 10000))

/-- The coordinate fallback name `f"GPS({lat:.4f},{lon:.4f})"`. -/
def gpsString (lat lon : ℚ) : String :=
  "GPS(" ++ fmt4 lat ++ "," ++ fmt4 lon ++ ")"

/-- A parsed Nominatim reverse-geocoding response: the structured address
fields and the optional formatted `display_name`. -/
structure NomResponse where
  address : List (String × String)
  display_name : Option String
deriving DecidableEq, Repr

/-- Outcome of the geocoding call: `fail` covers non-200 status codes,
network errors and the missing-requests-library branch. -/
inductive GeoReply where
  | fail
  | ok (r : NomResponse)
deriving DecidableEq, Repr

def cityFields : List String := ["city", "town", "village", "county", "state", "country"]

/-- The city-granularity field loop: first present field wins, with the
country appended unless the chosen field is the country itself. -/
def cityLoopName (address : List (String × String)) : List String → String
  | [] => ""
  | f :: rest =>
    match address.lookup f with
    | some v =>
      if f != "country" then
        match address.lookup "country" with
        | some c => v ++ ", " ++ c
        | none => v
      else v
    | none => cityLoopName address rest

/-- The `location_name` computed by `get_location_name` before ASCII
filtering, per granularity. -/
def rawLocationName (lat lon : ℚ) (granularity : String) (r : NomResponse) : String :=
  if granularity == "country" then
    match r.address.lookup "country" with
    | some c => c
    | none => "Unknown Country"
  else if granularity == "city" then
    let fromFields := cityLoopName r.address cityFields
    if fromFields == "" then
      match r.display_name with
      | some dn =>
        let parts := dn.splitOn ","
        let viaDisplay :=
          if parts.length > 2 then
            (parts.headD "").trim ++ ", " ++ (parts.getLastD "").trim
          else dn
        if viaDisplay == "" then gpsString lat lon else viaDisplay
      | none => gpsString lat lon
    else fromFields
  else gpsString lat lon

/-- Keep only characters with code point below 128. -/
def asciiFilter (s : String) : String :=
  String.mk (s.toList.filter (fun c => c.toNat < 128))

/-- Python `str.isspace` on the ASCII range. -/
def isPySpace (c : Char) : Bool :=
  c == ' ' || c == '\t' || c == '\n' || c == '\r' || c == '\x0b' || c == '\x0c'

/-- `get_location_name`: sentinel for absent or zero/zero coordinates, the
coordinate string on any geocoding failure, otherwise the ASCII-filtered
geocoded name with the coordinate string as last resort. -/
def get_location_name (gps : Option (ℚ × ℚ)) (granularity : String)
    (reply : GeoReply) : String :=
  match gps with
  | none => "Unknown Location"
  | some (lat, lon) =>
    if lat == 0 && lon == 0 then "Unknown Location"
    else
      match reply with
      | .fail => gpsString lat lon
      | .ok r =>
        let location_name := rawLocationName lat lon granularity r
        let filtered_name := asciiFilter location_name
        if filtered_name == "" || filtered_name.toList.all isPySpace then
          gpsString lat lon
        else filtered_name

/-! ### Duplicate detection -/

/-- The 100 MB ceiling above which `_find_duplicates_thread` skips a file. -/
def dupSizeCap : Nat := 100 * 1024 * 1024

/-- A file as the duplicate finder sees it. -/
structure DFile where
  path : String
  size : Nat
  bytes : List Nat
deriving DecidableEq, Repr

/-- Insertion into the `file_hashes` dictionary (Python dicts preserve
insertion order): append to the existing bucket, or add a new one at the
end. -/
def addToBuckets : List (String × List String) → String → String → List (String × List String)
  | [], h, p => [(h, [p])]
  | (k, ps) :: rest, h, p =>
    if k == h then (k, ps ++ [p]) :: rest else (k, ps) :: addToBuckets rest h p

/-- The hashing loop of `_find_duplicates_thread`: skip files above the size
ceiling, skip files whose hash computation fails, bucket the rest by digest.
`md5` is the digest function over file bytes; `hashOk` tells whether
`_calculate_file_hash` succeeds for a path. -/
def buildBuckets (md5 : List Nat → String) (hashOk : String → Bool) :
    List DFile → List (String × List String) → List (String × List String)
  | [], acc => acc
  | f :: rest, acc =>
    if f.size > dupSizeCap then buildBuckets md5 hashOk rest acc
    else if hashOk f.path then
      buildBuckets md5 hashOk rest (addToBuckets acc (md5 f.bytes) f.path)
    else buildBuckets md5 hashOk rest acc

/-- `_find_duplicates_thread` result: only buckets with at least two
members. -/
def find_duplicates (md5 : List Nat → String) (hashOk : String → Bool)
    (files : List DFile) : List (String × List String) :=
  (buildBuckets md5 hashOk files []).filter (fun b => b.2.length > 1)

/-- The files that are neither skipped for size nor lost to a hash failure. -/
def survivors (hashOk : String → Bool) (files : List DFile) : List DFile :=
  files.filter (fun f => decide (f.size ≤ dupSizeCap) && hashOk f.path)

/-- Declarative description of one digest's bucket: the paths of the
surviving files with that digest, in scan order. -/
def survivorPaths (md5 : List Nat → String) (hashOk : String → Bool)
    (files : List DFile) (h : String) : List String :=
  ((survivors hashOk files).filter (fun f => md5 f.bytes == h)).map DFile.path

/-! ### Empty-directory cleanup -/

mutual
inductive FsTree where
  | dir (name : String) (readable : Bool) (files : List String) (subdirs : FsForest)
inductive FsForest where
  | nil
  | cons (head : FsTree) (tail : FsForest)
end

def FsForest.isEmptyForest : FsForest → Bool
  | .nil => true
  | .cons _ _ => false

/-- `is_dir_empty`: an unreadable directory raises in `os.scandir` and is
reported non-empty "for safety". -/
def is_dir_empty : FsTree → Bool
  | .dir _ readable files subdirs =>
    if readable then files.isEmpty && subdirs.isEmptyForest else false

def consOpt : Option FsTree → FsForest → FsForest
  | none, ts => ts
  | some t, ts => .cons t ts

mutual
/-- `remove_empty_dirs`: the result tree (`none` when the directory was
removed) together with a flag saying whether an exception escaped the call.
`os.listdir` on an unreadable directory raises `PermissionError`, which the
source does not catch, so the flag comes back `true` and the caller's loop
stops there; `is_dir_empty` is only consulted on readable directories. -/
def remove_empty_dirs (isRoot : Bool) : FsTree → Option FsTree × Bool
  | .dir name readable files subdirs =>
    if readable then
      match remove_children subdirs with
      | (newSubs, true) => (some (.dir name readable files newSubs), true)
      | (newSubs, false) =>
        if files.isEmpty && newSubs.isEmptyForest && !isRoot then (none, false)
        else (some (.dir name readable files newSubs), false)
    else (some (.dir name readable files subdirs), true)

/-- The `for item in os.listdir(path)` loop over subdirectories: an escaped
exception from a child aborts the loop, leaving later children untouched. -/
def remove_children : FsForest → FsForest × Bool
  | .nil => (.nil, false)
  | .cons t ts =>
    match remove_empty_dirs false t with
    | (res, true) => (consOpt res ts, true)
    | (res, false) =>
      match remove_children ts with
      | (rest, err) => (consOpt res rest, err)
end

/-! ### Supporting lemmas -/

theorem daysInMonth_le (y m : Nat) : daysInMonth y m ≤ 31 := by
  unfold daysInMonth
  split
  · split <;> omega
  · split <;> omega

theorem validDate_bounds {y m d : Nat} (h : validDate y m d = true) :
    1 ≤ m ∧ m ≤ 12 ∧ 1 ≤ d ∧ d ≤ 31 := by
  have hle := daysInMonth_le y m
  simp only [validDate, Bool.and_eq_true, decide_eq_true_eq] at h
  omega

theorem tryPatterns_eq_findSome (ps : List PatternMatcher) (cs : List Char) :
    tryPatterns ps cs = ps.findSome? (fun p =>
      match reSearch p cs with
      | some (y, m, d) =>
        if 1900 ≤ y ∧ y ≤ 2100 ∧ validDate y m d then some ⟨y, m, d⟩ else none
      | none => none) := by
  induction ps with
  | nil => rfl
  | cons p ps ih =>
    simp only [tryPatterns, List.findSome?]
    cases hr : reSearch p cs with
    | none => simpa using ih
    | some ymd =>
      obtain ⟨y, m, d⟩ := ymd
      by_cases hv : validDate y m d = true
      · have hb := validDate_bounds hv
        by_cases hy : 1900 ≤ y ∧ y ≤ 2100
        · have hcode : 1900 ≤ y ∧ y ≤ 2100 ∧ 1 ≤ m ∧ m ≤ 12 ∧ 1 ≤ d ∧ d ≤ 31 := by
            exact ⟨hy.1, hy.2, hb.1, hb.2.1, hb.2.2.1, hb.2.2.2⟩
          simp [hcode, hv, hy]
        · have hcode : ¬(1900 ≤ y ∧ y ≤ 2100 ∧ 1 ≤ m ∧ m ≤ 12 ∧ 1 ≤ d ∧ d ≤ 31) := by
            intro hc
            exact hy ⟨hc.1, hc.2.1⟩
          have hspec : ¬(1900 ≤ y ∧ y ≤ 2100 ∧ validDate y m d = true) := by
            intro hc
            exact hy ⟨hc.1, hc.2.1⟩
          simp only [hcode, if_false, hspec]
          simpa using ih
      · by_cases hcode : 1900 ≤ y ∧ y ≤ 2100 ∧ 1 ≤ m ∧ m ≤ 12 ∧ 1 ≤ d ∧ d ≤ 31
        · have hspec : ¬(1900 ≤ y ∧ y ≤ 2100 ∧ validDate y m d = true) := by
            intro hc
            exact hv hc.2.2
          simp only [hcode, if_true, hv, if_false, hspec]
          simpa using ih
        · have hspec : ¬(1900 ≤ y ∧ y ≤ 2100 ∧ validDate y m d = true) := by
            intro hc
            exact hv hc.2.2
          simp only [hcode, if_false, hspec]
          simpa using ih

/-! ### Claim theorems: date resolution -/

/-- C1: under policy `all`, `get_file_date` tries the filename patterns, then
the EXIF date, then the filesystem date, returning the first available (total
because the filesystem date always exists); the single-source policies
`filename` and `exif` consult only their source before the filesystem
fallback, and `filedate` goes straight to the filesystem date.  For
`2022-03-04_party.jpg` with no embedded metadata, policy `all` returns
March 4, 2022 regardless of the filesystem timestamp. -/
theorem get_file_date_policy_chain :
    (∀ fname exifDate fsDate,
        get_file_date "all" fname exifDate fsDate
          = ((get_date_from_filename fname).orElse (fun _ => exifDate)).getD fsDate)
  ∧ (∀ fname exifDate fsDate,
        get_file_date "filename" fname exifDate fsDate
          = (get_date_from_filename fname).getD fsDate)
  ∧ (∀ fname exifDate fsDate,
        get_file_date "exif" fname exifDate fsDate = exifDate.getD fsDate)
  ∧ (∀ fname exifDate fsDate,
        get_file_date "filedate" fname exifDate fsDate = fsDate)
  ∧ (∀ fsDate, get_file_date "all" "2022-03-04_party.jpg" none fsDate
        = { year := 2022, month := 3, day := 4 }) := by
  refine ⟨?_, ?_, ?_, ?_, ?_⟩
  · intro fname exifDate fsDate
    cases hf : get_date_from_filename fname <;> cases exifDate <;>
      simp [get_file_date, hf, Option.orElse]
  · intro fname exifDate fsDate
    cases hf : get_date_from_filename fname <;> simp [get_file_date, hf]
  · intro fname exifDate fsDate
    cases exifDate <;> simp [get_file_date]
  · intro fname exifDate fsDate
    simp [get_file_date]
  · intro fsDate
    rfl

/-- C2: date-from-filename tries the six regex families in fixed priority
order and returns the first match forming a calendar-valid date with year in
1900..2100 (proved as equivalence with the spec-worded first-valid-pattern
scan); a filename containing `20230230` (Feb 30) yields no filename date, so
resolution under `all` falls through to the next source; and the DD-MM family
outranks MM-DD. -/
theorem date_from_filename_pattern_priority :
    (∀ s, get_date_from_filename s = dateFromFilenameSpec s)
  ∧ get_date_from_filename "photo_20230230.jpg" = none
  ∧ (∀ exifDate fsDate, get_file_date "all" "photo_20230230.jpg" (some exifDate) fsDate
        = exifDate)
  ∧ (∀ fsDate, get_file_date "all" "photo_20230230.jpg" none fsDate = fsDate)
  ∧ get_date_from_filename "05-06-2022.jpg" = some { year := 2022, month := 6, day := 5 } := by
  refine ⟨?_, by decide, ?_, ?_, by decide⟩
  · intro s
    exact tryPatterns_eq_findSome datePatterns s.toList
  · intro exifDate fsDate
    rfl
  · intro fsDate
    rfl

/-! ### Claim theorems: plan execution -/

theorem exec_loop_all_skip :
    ∀ (plan : List (FPath × FPath)) (errs : List Bool) (st : ExecState),
      (∀ e ∈ plan, dirname e.1 = dirname e.2) →
      exec_loop plan errs st = { st with skipped := st.skipped + plan.length } := by
  intro plan
  induction plan with
  | nil =>
    intro errs st h
    simp [exec_loop]
  | cons e rest ih =>
    intro errs st h
    have he : dirname e.1 = dirname e.2 := h e (by simp)
    have hrest : ∀ x ∈ rest, dirname x.1 = dirname x.2 := fun x hx => h x (by simp [hx])
    simp only [exec_loop]
    rw [exec_entry, if_pos he, ih _ _ hrest]
    simp only [List.length_cons]
    congr 1
    omega

/-- C3: a plan entry whose source and destination directories coincide is
recorded as skipped with no filesystem effect, so executing a plan made only
of such entries (an already-organized tree) changes no file and counts every
entry as skipped. -/
theorem execute_already_organized_skips_all :
    ∀ (plan : List (FPath × FPath)) (errs : List Bool) (fs : List FPath),
      (∀ e ∈ plan, dirname e.1 = dirname e.2) →
      execute_organization plan errs fs
        = { fs := fs, moved := 0, skipped := plan.length, failed := 0 } := by
  intro plan errs fs h
  unfold execute_organization
  rw [exec_loop_all_skip plan errs _ h]
  simp

theorem execute_already_organized_skips_all_witness :
    execute_organization
        [((["r", "a", "f.txt"] : FPath), (["r", "a", "f.txt"] : FPath)),
         ((["r", "b", "g.jpg"] : FPath), (["r", "b", "g.jpg"] : FPath))]
        [] [["r", "a", "f.txt"], ["r", "b", "g.jpg"]]
      = { fs := [["r", "a", "f.txt"], ["r", "b", "g.jpg"]],
          moved := 0, skipped := 2, failed := 0 } :=
  execute_already_organized_skips_all _ _ _ (by decide)

theorem unique_candidate_succ (filename : String) (n : Nat) :
    unique_candidate filename (n + 1)
      = (splitext filename).1 ++ " (" ++ toString (n + 1) ++ ")" ++ (splitext filename).2 := by
  simp [unique_candidate]

theorem unique_name_loop_finds :
    ∀ (fs : List FPath) (dest : FPath) (filename : String) (k : Nat),
      ∀ (fuel n : Nat),
      k ≤ fuel →
      (dest ++ [unique_candidate filename (n + k)]) ∉ fs →
      (∀ j, n ≤ j → j < n + k → (dest ++ [unique_candidate filename j]) ∈ fs) →
      unique_name_loop fs dest (splitext filename).1 (splitext filename).2
          (unique_candidate filename n) (n + 1) fuel
        = unique_candidate filename (n + k) := by
  intro fs dest filename k
  induction k with
  | zero =>
    intro fuel n _ hfree _
    simp only [Nat.add_zero] at hfree ⊢
    cases fuel with
    | zero => rfl
    | succ f =>
      simp [unique_name_loop, hfree]
  | succ k ih =>
    intro fuel n hk hfree hcoll
    cases fuel with
    | zero => omega
    | succ f =>
      have hmem : (dest ++ [unique_candidate filename n]) ∈ fs :=
        hcoll n (Nat.le_refl n) (by omega)
      simp only [unique_name_loop, if_pos hmem]
      rw [← unique_candidate_succ]
      have harith : n + (k + 1) = (n + 1) + k := by omega
      rw [harith] at hfree ⊢
      exact ih f (n + 1) (by omega) hfree (fun j h1 h2 => hcoll j (by omega) (by omega))

theorem generate_unique_finds (fs : List FPath) (dest : FPath) (filename : String)
    (h : ∃ k, k ≤ fs.length ∧ (dest ++ [unique_candidate filename k]) ∉ fs) :
    ∃ k, (dest ++ [unique_candidate filename k]) ∉ fs
      ∧ (∀ j, j < k → (dest ++ [unique_candidate filename j]) ∈ fs)
      ∧ generate_unique_filename fs dest filename = unique_candidate filename k := by
  classical
  obtain ⟨k, hk, hfree⟩ := h
  have hex : ∃ j, (dest ++ [unique_candidate filename j]) ∉ fs := ⟨k, hfree⟩
  refine ⟨Nat.find hex, Nat.find_spec hex, ?_, ?_⟩
  · intro j hj
    have := Nat.find_min hex hj
    simpa using this
  · have hk0 : Nat.find hex ≤ k := Nat.find_min' hex hfree
    unfold generate_unique_filename
    have h0 : filename = unique_candidate filename 0 := by simp [unique_candidate]
    calc unique_name_loop fs dest (splitext filename).1 (splitext filename).2 filename 1
          (fs.length + 1)
        = unique_name_loop fs dest (splitext filename).1 (splitext filename).2
            (unique_candidate filename 0) (0 + 1) (fs.length + 1) := by rw [← h0]
      _ = unique_candidate filename (0 + Nat.find hex) := by
          refine unique_name_loop_finds fs dest filename (Nat.find hex) (fs.length + 1) 0
            (by omega) (by simpa using Nat.find_spec hex) ?_
          intro j _ hj
          have := Nat.find_min hex (by omega : j < Nat.find hex)
          simpa using this
      _ = unique_candidate filename (Nat.find hex) := by rw [Nat.zero_add]

/-- C4: when the literal destination is occupied, the executor derives the
destination name by appending ` (n)` before the extension with n counted up
from 1 until the name is free (the returned name is the first free candidate
in that sequence); in the claim's scenario with `X/photo.jpg` occupied and two
further files mapping there, the executed result stores `photo (1).jpg` and
`photo (2).jpg` in processing order. -/
theorem collision_suffix_naming :
    (∀ (fs : List FPath) (dest : FPath) (filename : String),
        (∃ k, k ≤ fs.length ∧ (dest ++ [unique_candidate filename k]) ∉ fs) →
        ∃ k, (dest ++ [unique_candidate filename k]) ∉ fs
          ∧ (∀ j, j < k → (dest ++ [unique_candidate filename j]) ∈ fs)
          ∧ generate_unique_filename fs dest filename = unique_candidate filename k)
  ∧ execute_organization
        [(["Y", "photo.jpg"], ["X", "photo.jpg"]), (["Z", "photo.jpg"], ["X", "photo.jpg"])]
        [false, false]
        [["X", "photo.jpg"], ["Y", "photo.jpg"], ["Z", "photo.jpg"]]
      = { fs := [["X", "photo.jpg"], ["X", "photo (1).jpg"], ["X", "photo (2).jpg"]],
          moved := 2, skipped := 0, failed := 0 } :=
  ⟨fun fs dest filename h => generate_unique_finds fs dest filename h, by decide⟩

theorem collision_suffix_naming_witness :
    ∃ k, ((["X"] : FPath) ++ [unique_candidate "photo.jpg" k]) ∉ [(["X", "photo.jpg"] : FPath)]
      ∧ (∀ j, j < k →
          ((["X"] : FPath) ++ [unique_candidate "photo.jpg" j]) ∈ [(["X", "photo.jpg"] : FPath)])
      ∧ generate_unique_filename [["X", "photo.jpg"]] ["X"] "photo.jpg"
          = unique_candidate "photo.jpg" k :=
  collision_suffix_naming.1 [["X", "photo.jpg"]] ["X"] "photo.jpg" ⟨1, by decide, by decide⟩

theorem exec_entry_one_outcome (b : Bool) (st : ExecState) (s d : FPath) :
    (exec_entry b st s d).skipped
        = st.skipped + (if dirname s = dirname d then 1 else 0)
    ∧ (exec_entry b st s d).failed
        = st.failed + (if ¬dirname s = dirname d ∧ b = true then 1 else 0)
    ∧ (exec_entry b st s d).moved
        = st.moved + (if ¬dirname s = dirname d ∧ b = false then 1 else 0) := by
  by_cases hd : dirname s = dirname d
  · simp [exec_entry, hd]
  · cases b <;> simp [exec_entry, hd]

theorem exec_loop_counts :
    ∀ (plan : List (FPath × FPath)) (errs : List Bool) (st : ExecState),
      errs.length = plan.length →
      (exec_loop plan errs st).skipped
          = st.skipped + plan.countP (fun e => decide (dirname e.1 = dirname e.2))
      ∧ (exec_loop plan errs st).failed
          = st.failed + (plan.zip errs).countP
              (fun pe => !decide (dirname pe.1.1 = dirname pe.1.2) && pe.2)
      ∧ (exec_loop plan errs st).moved
          = st.moved + (plan.zip errs).countP
              (fun pe => !decide (dirname pe.1.1 = dirname pe.1.2) && !pe.2) := by
  intro plan
  induction plan with
  | nil =>
    intro errs st h
    simp [exec_loop]
  | cons e rest ih =>
    intro errs st h
    cases errs with
    | nil => simp at h
    | cons b bs =>
      simp only [List.length_cons] at h
      have hb : bs.length = rest.length := by omega
      obtain ⟨e1, e2⟩ := e
      obtain ⟨ihs, ihf, ihm⟩ := ih bs (exec_entry b st (e1, e2).1 (e1, e2).2) hb
      obtain ⟨hs, hf, hm⟩ := exec_entry_one_outcome b st e1 e2
      simp only [exec_loop, List.headD, List.tail_cons]
      refine ⟨?_, ?_, ?_⟩
      · rw [ihs, hs, List.countP_cons]
        by_cases hd : dirname e1 = dirname e2 <;> (simp [hd]; try omega)
      · rw [ihf, hf, List.zip_cons_cons, List.countP_cons]
        by_cases hd : dirname e1 = dirname e2 <;> cases b <;> (simp [hd]; try omega)
      · rw [ihm, hm, List.zip_cons_cons, List.countP_cons]
        by_cases hd : dirname e1 = dirname e2 <;> cases b <;> (simp [hd]; try omega)

/-- C5: every plan entry is accounted exactly once — skipped when source and
destination directory coincide, failed when its move raises, moved otherwise —
so moved + skipped + failed equals the number of entries, and a failing entry
never stops the processing of later entries. -/
theorem execution_accounting :
    ∀ (plan : List (FPath × FPath)) (errs : List Bool) (fs : List FPath),
      errs.length = plan.length →
      (execute_organization plan errs fs).moved + (execute_organization plan errs fs).skipped
          + (execute_organization plan errs fs).failed = plan.length
      ∧ (execute_organization plan errs fs).skipped
          = plan.countP (fun e => decide (dirname e.1 = dirname e.2))
      ∧ (execute_organization plan errs fs).failed
          = (plan.zip errs).countP
              (fun pe => !decide (dirname pe.1.1 = dirname pe.1.2) && pe.2)
      ∧ (execute_organization plan errs fs).moved
          = (plan.zip errs).countP
              (fun pe => !decide (dirname pe.1.1 = dirname pe.1.2) && !pe.2) := by
  intro plan errs fs h
  obtain ⟨hs, hf, hm⟩ :=
    exec_loop_counts plan errs { fs := fs, moved := 0, skipped := 0, failed := 0 } h
  unfold execute_organization
  refine ⟨?_, by simpa using hs, by simpa using hf, by simpa using hm⟩
  rw [hs, hf, hm]
  have hzip : (plan.zip errs).length = plan.length := by
    rw [List.length_zip]
    omega
  have hpart : ∀ (l : List ((FPath × FPath) × Bool)),
      l.countP (fun pe => !decide (dirname pe.1.1 = dirname pe.1.2) && !pe.2)
        + l.countP (fun pe => decide (dirname pe.1.1 = dirname pe.1.2))
        + l.countP (fun pe => !decide (dirname pe.1.1 = dirname pe.1.2) && pe.2)
        = l.length := by
    intro l
    induction l with
    | nil => simp
    | cons x xs ihx =>
      simp only [List.countP_cons, List.length_cons]
      by_cases hd : dirname x.1.1 = dirname x.1.2 <;> cases hxb : x.2 <;>
        simp [hd, hxb] <;> omega
  have hcount : plan.countP (fun e => decide (dirname e.1 = dirname e.2))
      = (plan.zip errs).countP (fun pe => decide (dirname pe.1.1 = dirname pe.1.2)) := by
    clear hs hf hm hzip hpart
    induction plan generalizing errs with
    | nil => simp
    | cons e rest ihp =>
      cases errs with
      | nil => simp at h
      | cons b bs =>
        simp only [List.length_cons] at h
        rw [List.zip_cons_cons, List.countP_cons, List.countP_cons,
          ihp bs (by omega)]
  rw [hcount]
  rw [← hzip]
  simpa using hpart (plan.zip errs)

theorem execution_accounting_witness :
    (execute_organization
        [((["r", "a", "f.txt"] : FPath), (["r", "c", "f.txt"] : FPath)),
         ((["r", "b", "g.jpg"] : FPath), (["r", "b", "g.jpg"] : FPath)),
         ((["r", "b", "h.txt"] : FPath), (["r", "c", "h.txt"] : FPath))]
        [false, false, true]
        [["r", "a", "f.txt"], ["r", "b", "g.jpg"], ["r", "b", "h.txt"]]).moved
      + (execute_organization
        [((["r", "a", "f.txt"] : FPath), (["r", "c", "f.txt"] : FPath)),
         ((["r", "b", "g.jpg"] : FPath), (["r", "b", "g.jpg"] : FPath)),
         ((["r", "b", "h.txt"] : FPath), (["r", "c", "h.txt"] : FPath))]
        [false, false, true]
        [["r", "a", "f.txt"], ["r", "b", "g.jpg"], ["r", "b", "h.txt"]]).skipped
      + (execute_organization
        [((["r", "a", "f.txt"] : FPath), (["r", "c", "f.txt"] : FPath)),
         ((["r", "b", "g.jpg"] : FPath), (["r", "b", "g.jpg"] : FPath)),
         ((["r", "b", "h.txt"] : FPath), (["r", "c", "h.txt"] : FPath))]
        [false, false, true]
        [["r", "a", "f.txt"], ["r", "b", "g.jpg"], ["r", "b", "h.txt"]]).failed = 3 :=
  (execution_accounting _ _ _ (by decide)).1

/-! ### Claim theorems: GPS extraction -/

theorem guard_bounds {l o lat lon : ℚ}
    (h : (if |l| > 90 ∨ |o| > 180 then (none : Option (ℚ × ℚ)) else some (l, o))
      = some (lat, lon)) : |lat| ≤ 90 ∧ |lon| ≤ 180 := by
  split at h
  · exact absurd h (by simp)
  · rename_i hg
    push_neg at hg
    simp only [Option.some.injEq, Prod.mk.injEq] at h
    exact ⟨h.1 ▸ hg.1, h.2 ▸ hg.2⟩

/-- C6: any coordinate pair emitted by GPS extraction satisfies the
latitude/longitude bounds; a degrees/minutes/seconds triple with negative
degrees or minutes/seconds outside [0, 60) converts to nothing; and in
particular (95, 10) is never returned. -/
theorem gps_extraction_bounds :
    (∀ g lat lon, extract_gps g = some (lat, lon) → |lat| ≤ 90 ∧ |lon| ≤ 180)
  ∧ (∀ dc mc sc,
      (componentValue dc < 0 ∨ componentValue mc < 0 ∨ componentValue mc ≥ 60
        ∨ componentValue sc < 0 ∨ componentValue sc ≥ 60) →
      convert_gps_coords [dc, mc, sc] = none)
  ∧ (∀ g, extract_gps g ≠ some (95, 10)) := by
  have h1 : ∀ g lat lon, extract_gps g = some (lat, lon) → |lat| ≤ 90 ∧ |lon| ≤ 180 := by
    intro g lat lon h
    obtain ⟨glat, glon, gref1, gref2⟩ := g
    cases glat with
    | none => simp [extract_gps] at h
    | some latC =>
      cases glon with
      | none => simp [extract_gps] at h
      | some lonC =>
        simp only [extract_gps] at h
        cases hcl : convert_gps_coords latC with
        | none => rw [hcl] at h; simp at h
        | some lat0 =>
          cases hco : convert_gps_coords lonC with
          | none => rw [hcl, hco] at h; simp at h
          | some lon0 =>
            rw [hcl, hco] at h
            exact guard_bounds h
  refine ⟨h1, ?_, ?_⟩
  · intro dc mc sc h
    simp only [convert_gps_coords]
    exact if_pos (by tauto)
  · intro g h
    have hb := (h1 g 95 10 h).1
    have : |(95 : ℚ)| = 95 := by
      rw [abs_of_nonneg]
      norm_num
    rw [this] at hb
    norm_num at hb

theorem gps_extraction_bounds_witness :
    |(91 / 2 : ℚ)| ≤ 90 ∧ |(10 : ℚ)| ≤ 180 :=
  gps_extraction_bounds.1
    { latitude := some [.plain 45, .plain 30, .plain 0],
      longitude := some [.plain 10, .plain 0, .plain 0],
      latRef := "N", lonRef := "E" }
    (91 / 2) 10 (by
      have hn : ("N" == "S") = false := by decide
      have he : ("E" == "W") = false := by decide
      simp only [extract_gps, convert_gps_coords, componentValue, hn, he]
      norm_num
      intro habs
      rw [abs_of_nonneg (by norm_num : (0 : ℚ) ≤ 91 / 2)] at habs
      norm_num at habs)

/-! ### Claim theorems: category classification -/

/-- C9: classification lower-cases the file's extension and returns the first
category of the table whose extension set contains it, in table iteration
order, defaulting to "Other"; only the lower-cased extension matters, and on
the default table `.heic` in any letter case goes to Images while `.xyz123`
goes to Other. -/
theorem category_classification :
    (∀ (table : List (String × List String)) (p : String),
        get_file_category table p
          = ((table.find? (fun c => decide (lowerString (splitext p).2 ∈ c.2))).map
              Prod.fst).getD "Other")
  ∧ (∀ (table : List (String × List String)) (p q : String),
        lowerString (splitext p).2 = lowerString (splitext q).2 →
        get_file_category table p = get_file_category table q)
  ∧ get_file_category default_categories "pic.heic" = "Images"
  ∧ get_file_category default_categories "pic.HeIc" = "Images"
  ∧ get_file_category default_categories "pic.HEIC" = "Images"
  ∧ get_file_category default_categories "doc.xyz123" = "Other" := by
  refine ⟨?_, ?_, by decide, by decide, by decide, by decide⟩
  · intro table p
    unfold get_file_category
    induction table with
    | nil => rfl
    | cons c rest ih =>
      by_cases hm : lowerString (splitext p).2 ∈ c.2
      · simp [categoryLoop, List.find?_cons, hm]
      · simp only [categoryLoop, if_neg hm, List.find?_cons, decide_eq_true_eq, hm]
        simpa using ih
  · intro table p q h
    unfold get_file_category
    rw [h]

theorem category_classification_witness :
    get_file_category default_categories "a.JPG"
      = get_file_category default_categories "b.jpg" :=
  category_classification.2.1 default_categories "a.JPG" "b.jpg" (by decide)

/-! ### Claim theorems: location naming -/

theorem char_digit_ascii (r : Nat) (hr : r < 10) : (Char.ofNat (48 + r)).toNat < 128 := by
  interval_cases r <;> decide

theorem natDecAux_ascii : ∀ fuel n, ∀ c ∈ natDecAux fuel n, c.toNat < 128 := by
  intro fuel
  induction fuel with
  | zero =>
    intro n c hc
    simp [natDecAux] at hc
  | succ f ih =>
    intro n c hc
    simp only [natDecAux] at hc
    split at hc
    · simp at hc
    · rcases List.mem_append.mp hc with hc | hc
      · exact ih (n / 10) c hc
      · have hce : c = Char.ofNat (48 + n % 10) := by simpa using hc
        subst hce
        exact char_digit_ascii (n % 10) (Nat.mod_lt _ (by norm_num))

theorem natDec_ascii (n : Nat) : ∀ c ∈ (natDec n).toList, c.toNat < 128 := by
  intro c hc
  unfold natDec at hc
  split at hc
  · have : c = '0' := by simpa [String.toList] using hc
    subst this
    decide
  · exact natDecAux_ascii (n + 1) n c (by simpa [String.toList] using hc)

theorem pad4_ascii (s : String) (h : ∀ c ∈ s.toList, c.toNat < 128) :
    ∀ c ∈ (pad4 s).toList, c.toNat < 128 := by
  intro c hc
  unfold pad4 at hc
  simp only [String.toList, String.data_append] at hc
  rcases List.mem_append.mp hc with hc | hc
  · have : c = '0' := List.eq_of_mem_replicate (by simpa using hc)
    subst this
    decide
  · exact h c hc

theorem fmt4_ascii (q : ℚ) : ∀ c ∈ (fmt4 q).toList, c.toNat < 128 := by
  intro c hc
  unfold fmt4 at hc
  simp only [String.toList, String.data_append] at hc
  rcases List.mem_append.mp hc with hc | hc
  · rcases List.mem_append.mp hc with hc | hc
    · rcases List.mem_append.mp hc with hc | hc
      · split at hc <;> simp_all
      · exact natDec_ascii _ c hc
    · have : c = '.' := by simpa using hc
      subst this
      decide
  · exact pad4_ascii _ (natDec_ascii _) c hc

theorem gpsString_ascii (lat lon : ℚ) : ∀ c ∈ (gpsString lat lon).toList, c.toNat < 128 := by
  intro c hc
  unfold gpsString at hc
  simp only [String.toList, String.data_append] at hc
  rcases List.mem_append.mp hc with hc | hc
  · rcases List.mem_append.mp hc with hc | hc
    · rcases List.mem_append.mp hc with hc | hc
      · rcases List.mem_append.mp hc with hc | hc
        · have hAll : ∀ x ∈ ("GPS(").toList, x.toNat < 128 := by decide
          exact hAll c hc
        · exact fmt4_ascii lat c hc
      · have : c = ',' := by simpa using hc
        subst this
        decide
    · exact fmt4_ascii lon c hc
  · have : c = ')' := by simpa using hc
    subst this
    decide

theorem asciiFilter_ascii (s : String) : ∀ c ∈ (asciiFilter s).toList, c.toNat < 128 := by
  intro c hc
  simp only [asciiFilter, String.toList] at hc
  exact of_decide_eq_true (List.mem_filter.mp hc).2

theorem unknown_location_ascii : ∀ c ∈ ("Unknown Location").toList, c.toNat < 128 := by
  decide

/-- C7: location naming returns the sentinel "Unknown Location" for absent or
zero/zero coordinates; every name it produces is pure ASCII (code points below
128); and whenever the ASCII filtering of the geocoded name leaves only
whitespace (or nothing), the numeric GPS coordinate string is returned
instead. -/
theorem location_naming :
    (∀ granularity reply, get_location_name none granularity reply = "Unknown Location")
  ∧ (∀ granularity reply,
      get_location_name (some (0, 0)) granularity reply = "Unknown Location")
  ∧ (∀ gps granularity reply,
      ∀ c ∈ (get_location_name gps granularity reply).toList, c.toNat < 128)
  ∧ (∀ lat lon granularity r, ¬(lat = 0 ∧ lon = 0) →
      (asciiFilter (rawLocationName lat lon granularity r)).toList.all isPySpace = true →
      get_location_name (some (lat, lon)) granularity (GeoReply.ok r)
        = gpsString lat lon) := by
  refine ⟨fun granularity reply => rfl, fun granularity reply => rfl, ?_, ?_⟩
  · intro gps granularity reply c hc
    match gps with
    | none => exact unknown_location_ascii c hc
    | some (lat, lon) =>
      simp only [get_location_name] at hc
      split at hc
      · exact unknown_location_ascii c hc
      · match reply with
        | GeoReply.fail => exact gpsString_ascii lat lon c hc
        | GeoReply.ok r =>
          simp only at hc
          split at hc
          · exact gpsString_ascii lat lon c hc
          · exact asciiFilter_ascii _ c hc
  · intro lat lon granularity r hne hsp
    have hz : (lat == 0 && lon == 0) = false := by
      rw [Bool.eq_false_iff]
      intro hB
      obtain ⟨h1, h2⟩ := Bool.and_eq_true_iff.mp hB
      exact hne ⟨eq_of_beq h1, eq_of_beq h2⟩
    have hsp2 : (asciiFilter (rawLocationName lat lon granularity r)).data.all
        isPySpace = true := hsp
    simp [get_location_name, hz, hsp, hsp2]

theorem location_naming_witness :
    get_location_name (some (1, 2)) "country"
        (GeoReply.ok { address := [("country", "北京")], display_name := none })
      = gpsString 1 2 :=
  location_naming.2.2.2 1 2 "country"
    { address := [("country", "北京")], display_name := none }
    (by
      intro h
      exact absurd h.1 (by norm_num))
    (by decide)

/-! ### Claim theorems: duplicate grouping -/

theorem survivorPaths_nil (md5 : List Nat → String) (hashOk : String → Bool) (h : String) :
    survivorPaths md5 hashOk [] h = [] := rfl

theorem survivorPaths_cons (md5 : List Nat → String) (hashOk : String → Bool)
    (f : DFile) (rest : List DFile) (h : String) :
    survivorPaths md5 hashOk (f :: rest) h
      = if ((decide (f.size ≤ dupSizeCap) && hashOk f.path) && (md5 f.bytes == h)) = true
        then f.path :: survivorPaths md5 hashOk rest h
        else survivorPaths md5 hashOk rest h := by
  simp only [survivorPaths, survivors, List.filter_cons]
  by_cases h1 : (decide (f.size ≤ dupSizeCap) && hashOk f.path) = true
  · by_cases h2 : (md5 f.bytes == h) = true
    · simp [h1, h2, List.filter_cons]
    · simp [h1, h2, List.filter_cons]
  · simp [h1]

theorem lookup_addToBuckets_self (acc : List (String × List String)) (h p : String) :
    (addToBuckets acc h p).lookup h = some ((acc.lookup h).getD [] ++ [p]) := by
  induction acc with
  | nil => simp [addToBuckets, List.lookup]
  | cons kv rest ih =>
    obtain ⟨k, ps⟩ := kv
    by_cases hk : k = h
    · subst hk
      simp [addToBuckets, List.lookup_cons]
    · have hbk : (k == h) = false := by simp [hk]
      have hbh : (h == k) = false := by simp [Ne.symm hk]
      simp [addToBuckets, hbk, List.lookup_cons, hbh, ih]

theorem lookup_addToBuckets_ne (acc : List (String × List String)) (g h p : String)
    (hne : g ≠ h) : (addToBuckets acc h p).lookup g = acc.lookup g := by
  induction acc with
  | nil =>
    have hgh : (g == h) = false := by simp [hne]
    simp [addToBuckets, List.lookup_cons, hgh]
  | cons kv rest ih =>
    obtain ⟨k, ps⟩ := kv
    by_cases hk : k = h
    · subst hk
      have hgk : (g == k) = false := by simp [hne]
      simp [addToBuckets, List.lookup_cons, hgk]
    · have hbk : (k == h) = false := by simp [hk]
      cases hgk : (g == k) <;> simp [addToBuckets, hbk, List.lookup_cons, hgk, ih]

theorem keys_addToBuckets (acc : List (String × List String)) (h p : String) :
    (addToBuckets acc h p).map Prod.fst
      = if h ∈ acc.map Prod.fst then acc.map Prod.fst else acc.map Prod.fst ++ [h] := by
  induction acc with
  | nil => simp [addToBuckets]
  | cons kv rest ih =>
    obtain ⟨k, ps⟩ := kv
    by_cases hk : k = h
    · subst hk
      simp [addToBuckets]
    · have hbk : (k == h) = false := by simp [hk]
      by_cases hmem : h ∈ rest.map Prod.fst <;>
        simp [addToBuckets, hbk, ih, hmem, Ne.symm hk]

theorem nodup_keys_addToBuckets (acc : List (String × List String)) (h p : String)
    (hnd : (acc.map Prod.fst).Nodup) : ((addToBuckets acc h p).map Prod.fst).Nodup := by
  rw [keys_addToBuckets]
  split
  · exact hnd
  · rename_i hmem
    simp [List.nodup_append, hnd, hmem]

theorem nodup_keys_buildBuckets (md5 : List Nat → String) (hashOk : String → Bool) :
    ∀ (files : List DFile) (acc : List (String × List String)),
      (acc.map Prod.fst).Nodup → ((buildBuckets md5 hashOk files acc).map Prod.fst).Nodup := by
  intro files
  induction files with
  | nil =>
    intro acc h
    simpa [buildBuckets] using h
  | cons f rest ih =>
    intro acc h
    simp only [buildBuckets]
    split
    · exact ih acc h
    · split
      · exact ih _ (nodup_keys_addToBuckets acc _ _ h)
      · exact ih acc h

theorem mem_iff_lookup {l : List (String × List String)} (hnd : (l.map Prod.fst).Nodup)
    (h : String) (ps : List String) : (h, ps) ∈ l ↔ l.lookup h = some ps := by
  induction l with
  | nil => simp
  | cons kv rest ih =>
    obtain ⟨k, qs⟩ := kv
    simp only [List.map_cons, List.nodup_cons] at hnd
    obtain ⟨hknot, hndr⟩ := hnd
    by_cases hk : h = k
    · subst hk
      simp only [List.lookup_cons, beq_self_eq_true, List.mem_cons, Prod.mk.injEq, true_and]
      constructor
      · rintro (heq | hmem)
        · simp [heq]
        · exact absurd (List.mem_map_of_mem Prod.fst hmem) hknot
      · intro hsome
        left
        simpa using hsome.symm
    · have hbk : (h == k) = false := by simp [hk]
      simp [List.lookup_cons, hbk, ih hndr, hk]

theorem lookup_buildBuckets (md5 : List Nat → String) (hashOk : String → Bool) :
    ∀ (files : List DFile) (acc : List (String × List String)) (h : String),
    (buildBuckets md5 hashOk files acc).lookup h
      = match acc.lookup h with
        | some ps => some (ps ++ survivorPaths md5 hashOk files h)
        | none =>
          if survivorPaths md5 hashOk files h = [] then none
          else some (survivorPaths md5 hashOk files h) := by
  intro files
  induction files with
  | nil =>
    intro acc h
    simp only [buildBuckets, survivorPaths_nil]
    cases acc.lookup h <;> simp
  | cons f rest ih =>
    intro acc h
    rw [survivorPaths_cons]
    simp only [buildBuckets]
    by_cases hsize : f.size > dupSizeCap
    · rw [if_pos hsize, ih]
      have hdec : decide (f.size ≤ dupSizeCap) = false := by
        simp
        omega
      rw [hdec]
      simp
    · rw [if_neg hsize]
      have hdec : decide (f.size ≤ dupSizeCap) = true := by
        simp
        omega
      by_cases hok : hashOk f.path = true
      · rw [if_pos hok, ih]
        by_cases hh : md5 f.bytes = h
        · subst hh
          rw [lookup_addToBuckets_self]
          simp only [hdec, hok, beq_self_eq_true, Bool.and_self, Bool.and_true, if_true]
          cases hacc : acc.lookup (md5 f.bytes) <;> simp
        · have hbh : (md5 f.bytes == h) = false := by simp [hh]
          rw [lookup_addToBuckets_ne _ _ _ _ (Ne.symm hh)]
          simp [hbh]
      · have hokf : hashOk f.path = false := by simpa using hok
        rw [if_neg hok, ih]
        simp [hokf]

theorem mem_buildBuckets_iff (md5 : List Nat → String) (hashOk : String → Bool)
    (files : List DFile) (h : String) (ps : List String) :
    (h, ps) ∈ buildBuckets md5 hashOk files []
      ↔ (survivorPaths md5 hashOk files h ≠ []
          ∧ ps = survivorPaths md5 hashOk files h) := by
  rw [mem_iff_lookup (nodup_keys_buildBuckets md5 hashOk files [] (by simp)) h ps]
  rw [lookup_buildBuckets]
  simp only [List.lookup_nil]
  split
  · rename_i hsp
    simp [hsp]
  · rename_i hsp
    simp only [Option.some.injEq, hsp, ne_eq, not_false_eq_true, true_and]
    exact eq_comm

theorem mem_find_duplicates_iff (md5 : List Nat → String) (hashOk : String → Bool)
    (files : List DFile) (g : String × List String) :
    g ∈ find_duplicates md5 hashOk files
      ↔ (g.2 = survivorPaths md5 hashOk files g.1 ∧ 2 ≤ g.2.length) := by
  obtain ⟨h, ps⟩ := g
  simp only [find_duplicates, List.mem_filter, mem_buildBuckets_iff]
  constructor
  · rintro ⟨⟨hne, heq⟩, hlen⟩
    refine ⟨heq, ?_⟩
    have : 1 < ps.length := by simpa using hlen
    omega
  · rintro ⟨heq, hlen⟩
    have hne : survivorPaths md5 hashOk files h ≠ [] := by
      intro hnil
      rw [heq, hnil] at hlen
      simp at hlen
    refine ⟨⟨hne, heq⟩, ?_⟩
    simp only [decide_eq_true_eq]
    omega

theorem pair_two_le_length {α : Type} {a b : α} {l : List α}
    (ha : a ∈ l) (hb : b ∈ l) (hne : a ≠ b) : 2 ≤ l.length := by
  match l with
  | [] => simp at ha
  | [x] =>
    simp at ha hb
    exact absurd (ha.trans hb.symm) hne
  | x :: y :: rest =>
    simp only [List.length_cons]
    omega

theorem buildBuckets_md5_congr (md5b md5 : List Nat → String) (hashOk : String → Bool) :
    ∀ (files : List DFile) (acc : List (String × List String)),
      (∀ f ∈ files, f.size ≤ dupSizeCap → md5b f.bytes = md5 f.bytes) →
      buildBuckets md5b hashOk files acc = buildBuckets md5 hashOk files acc := by
  intro files
  induction files with
  | nil =>
    intro acc _
    rfl
  | cons f rest ih =>
    intro acc h
    have hr : ∀ x ∈ rest, x.size ≤ dupSizeCap → md5b x.bytes = md5 x.bytes :=
      fun x hx hs => h x (by simp [hx]) hs
    simp only [buildBuckets]
    split
    · exact ih acc hr
    · rename_i hsize
      have heq : md5b f.bytes = md5 f.bytes := h f (by simp) (by omega)
      rw [heq]
      split
      · exact ih _ hr
      · exact ih acc hr

theorem buildBuckets_filter_ok (md5 : List Nat → String) (hashOk : String → Bool) :
    ∀ (files : List DFile) (acc : List (String × List String)),
      buildBuckets md5 hashOk files acc
        = buildBuckets md5 (fun _ => true) (files.filter (fun f => hashOk f.path)) acc := by
  intro files
  induction files with
  | nil =>
    intro acc
    rfl
  | cons f rest ih =>
    intro acc
    simp only [List.filter_cons]
    by_cases hok : hashOk f.path = true
    · rw [if_pos hok]
      by_cases hsize : f.size > dupSizeCap
      · simp [buildBuckets, hsize, hok, ih acc]
      · simp [buildBuckets, hsize, hok, ih]
    · have hokf : hashOk f.path = false := by simpa using hok
      rw [if_neg (by simp [hokf])]
      by_cases hsize : f.size > dupSizeCap <;>
        simp [buildBuckets, hsize, hokf, ih acc]

/-- C8: duplicate detection buckets files by content digest and keeps only
buckets of at least two surviving members (each result bucket is exactly the
scan-ordered list of surviving files with that digest); two surviving files
with identical bytes land in one common group; a path whose files are all
above the 100 MB ceiling, or whose hash computation fails, appears in no
group — the ceiling skip never consults the digest function and a hash
failure behaves exactly as if the file were absent, without aborting the
batch. -/
theorem duplicate_grouping :
    ∀ (md5 : List Nat → String) (hashOk : String → Bool) (files : List DFile),
    (∀ g, g ∈ find_duplicates md5 hashOk files
        ↔ (g.2 = survivorPaths md5 hashOk files g.1 ∧ 2 ≤ g.2.length))
  ∧ (∀ f1 f2, f1 ∈ survivors hashOk files → f2 ∈ survivors hashOk files →
        f1.bytes = f2.bytes → f1.path ≠ f2.path →
        ∃ g, g ∈ find_duplicates md5 hashOk files ∧ f1.path ∈ g.2 ∧ f2.path ∈ g.2)
  ∧ (∀ p, (∀ f ∈ files, f.path = p → dupSizeCap < f.size) →
        ∀ g ∈ find_duplicates md5 hashOk files, p ∉ g.2)
  ∧ (∀ p, hashOk p = false → ∀ g ∈ find_duplicates md5 hashOk files, p ∉ g.2)
  ∧ (∀ md5b, (∀ f ∈ files, f.size ≤ dupSizeCap → md5b f.bytes = md5 f.bytes) →
        find_duplicates md5b hashOk files = find_duplicates md5 hashOk files)
  ∧ find_duplicates md5 hashOk files
      = find_duplicates md5 (fun _ => true) (files.filter (fun f => hashOk f.path)) := by
  intro md5 hashOk files
  refine ⟨mem_find_duplicates_iff md5 hashOk files, ?_, ?_, ?_, ?_, ?_⟩
  · intro f1 f2 h1 h2 hb hp
    have m1 : f1.path ∈ survivorPaths md5 hashOk files (md5 f1.bytes) := by
      exact List.mem_map_of_mem DFile.path (List.mem_filter.mpr ⟨h1, by simp⟩)
    have m2 : f2.path ∈ survivorPaths md5 hashOk files (md5 f1.bytes) := by
      exact List.mem_map_of_mem DFile.path (List.mem_filter.mpr ⟨h2, by simp [hb]⟩)
    refine ⟨(md5 f1.bytes, survivorPaths md5 hashOk files (md5 f1.bytes)), ?_, m1, m2⟩
    exact (mem_find_duplicates_iff md5 hashOk files _).mpr
      ⟨rfl, pair_two_le_length m1 m2 hp⟩
  · intro p hbig g hg hpg
    have hch := (mem_find_duplicates_iff md5 hashOk files g).mp hg
    rw [hch.1] at hpg
    obtain ⟨f, hf, hfp⟩ := List.mem_map.mp hpg
    have hmem := List.mem_filter.mp hf
    have hs := List.mem_filter.mp hmem.1
    have hsize : f.size ≤ dupSizeCap := by
      have h2 := hs.2
      simp only [Bool.and_eq_true, decide_eq_true_eq] at h2
      exact h2.1
    have := hbig f hs.1 hfp
    omega
  · intro p hfail g hg hpg
    have hch := (mem_find_duplicates_iff md5 hashOk files g).mp hg
    rw [hch.1] at hpg
    obtain ⟨f, hf, hfp⟩ := List.mem_map.mp hpg
    have hmem := List.mem_filter.mp hf
    have hs := List.mem_filter.mp hmem.1
    have hok : hashOk f.path = true := by
      have h2 := hs.2
      simp only [Bool.and_eq_true, decide_eq_true_eq] at h2
      exact h2.2
    rw [hfp, hfail] at hok
    exact absurd hok (by simp)
  · intro md5b hagree
    unfold find_duplicates
    rw [buildBuckets_md5_congr md5b md5 hashOk files [] hagree]
  · unfold find_duplicates
    rw [buildBuckets_filter_ok md5 hashOk files []]

theorem duplicate_grouping_witness :
    ∃ g, g ∈ find_duplicates
          (fun bs => String.mk (bs.map (fun n => Char.ofNat (97 + n % 26))))
          (fun _ => true)
          [⟨"a", 1, [1, 2]⟩, ⟨"b", 1, [1, 2]⟩, ⟨"c", 1, [1, 2]⟩, ⟨"d", 1, [1, 3]⟩,
           ⟨"e", 200 * 1024 * 1024, [1, 2]⟩]
        ∧ "a" ∈ g.2 ∧ "b" ∈ g.2 :=
  (duplicate_grouping
      (fun bs => String.mk (bs.map (fun n => Char.ofNat (97 + n % 26))))
      (fun _ => true)
      [⟨"a", 1, [1, 2]⟩, ⟨"b", 1, [1, 2]⟩, ⟨"c", 1, [1, 2]⟩, ⟨"d", 1, [1, 3]⟩,
       ⟨"e", 200 * 1024 * 1024, [1, 2]⟩]).2.1
    ⟨"a", 1, [1, 2]⟩ ⟨"b", 1, [1, 2]⟩ (by decide) (by decide) (by decide) (by decide)

/-! ### Claim theorems: empty-directory cleanup -/

/-- C10: evidence that the cleanup does NOT treat an unreadable directory as
merely non-empty.  First conjunct: with an unreadable subdirectory `locked`
under the scan root, `os.listdir` raises inside the recursion and the
exception escapes (flag `true`), so the whole cleanup aborts: the empty,
readable sibling `stale` that the loop would have visited next is left
unremoved.  Second conjunct: with readable children the empty subdirectory is
removed and the scan root itself — although now empty — is never removed.
Third conjunct: `is_dir_empty` itself does report an unreadable directory as
non-empty, which is the behaviour the claim generalises to the whole
cleanup. -/
theorem remove_empty_dirs_unreadable_aborts :
    (remove_empty_dirs true
        (FsTree.dir "root" true []
          (FsForest.cons (FsTree.dir "locked" false [] FsForest.nil)
            (FsForest.cons (FsTree.dir "stale" true [] FsForest.nil) FsForest.nil)))
      = (some (FsTree.dir "root" true []
          (FsForest.cons (FsTree.dir "locked" false [] FsForest.nil)
            (FsForest.cons (FsTree.dir "stale" true [] FsForest.nil) FsForest.nil))), true))
  ∧ (remove_empty_dirs true
        (FsTree.dir "root" true []
          (FsForest.cons (FsTree.dir "sub" true [] FsForest.nil) FsForest.nil))
      = (some (FsTree.dir "root" true [] FsForest.nil), false))
  ∧ is_dir_empty (FsTree.dir "locked" false [] FsForest.nil) = false :=
  ⟨rfl, rfl, rfl⟩

end FileOrganizer
